import Mathlib

/-!
Shallow embedding of the biosignal processing core (`src/scripts/biosignal.py`)
of the pyodide-service repository, together with theorems settling the
specification claims about it.

Modeling conventions:
* 32-bit float samples are modeled as exact rationals (`ℚ`); all structural
  properties claimed (padding, gap splicing, truncation, freshness gating)
  are value-generic, and arithmetic (subtraction, mean) is exact.
* Python exceptions are modeled with `Except PyErr`; an uncaught exception
  escaping a function is an `Except.error` result.
* Python list indexing (negative indices wrap, out of range raises) and
  slicing (negative indices count from the end, bounds clamp, never raises)
  are modeled by `pyIdx` / `pySliceZ`.
* `scipy.signal.butter` is modeled by the `ButterReq` record of the design
  request it receives (order, critical frequencies, band type, sampling
  rate): the claims under study are about which coefficients are designed,
  not about the numerical values of the SOS matrices.  `scipy.signal.sosfiltfilt`
  is an opaque external routine and is passed in as a function parameter
  `g : ButterReq → List ℚ → List ℚ`.
* The per-call coefficient caches (`hp_coeffs`, `lp_coeffs`, `notch_coeffs`)
  memoize the pure function `biosignal_get_filter_coefficients` keyed by
  exactly its arguments, so a cache hit returns the same value the
  recomputation would; the embedding therefore calls the function directly.
  The `common_ref` cache, which is semantically observable, is threaded
  explicitly.
* `biosignal_update_input` only refreshes the `input` views from the shared
  buffers (and swallows its own exceptions); the embedding takes the
  refreshed `input` as given in the state.
-/

namespace BiosignalModel

/-- Python exception kinds that the modeled code can raise. -/
inductive PyErr where
  | indexError : PyErr
  | valueError : PyErr
  | typeError : PyErr
  deriving DecidableEq, Repr

/-- Error payload of a boundary result: a string or a list of strings. -/
inductive ErrV where
  | s : String → ErrV
  | l : List String → ErrV
  deriving DecidableEq, Repr

/-- The `{ 'success': bool, 'error': str / str[] }` result shape. -/
structure PyResult where
  success : Bool
  error : Option ErrV
  deriving DecidableEq, Repr

/-- Result returned when all channels were derived and written. -/
def successRes : PyResult := ⟨true, none⟩

/-- Result returned when the freshness gate rejects a channel. -/
def notLoadedRes : PyResult :=
  ⟨false, some (.s ("Requested signals have not been loaded yet."))⟩

/-- Result returned when the global input list is unset or empty. -/
def inputNotSetRes : PyResult :=
  ⟨false, some (.s ("Cannot calculate signals, input has not been set."))⟩

/-- Python list indexing `l[i]`: negative indices count from the end,
out-of-range indices raise `IndexError`. -/
def pyIdx {α : Type} (l : List α) (i : ℤ) : Except PyErr α :=
  let j : ℤ := if i < 0 then i + l.length else i
  if h : 0 ≤ j ∧ j.toNat < l.length then .ok (l.get ⟨j.toNat, h.2⟩)
  else .error .indexError

/-- Python list indexing with a (nonnegative) machine index. -/
def pyIdxN {α : Type} (l : List α) (i : ℕ) : Except PyErr α :=
  if h : i < l.length then .ok (l.get ⟨i, h⟩) else .error .indexError

/-- Effective slice bound: Python adds the length to a negative index and
clamps the result into `[0, n]`. -/
def sliceIdx (n : ℕ) (i : ℤ) : ℕ :=
  min ((if i < 0 then i + n else i).toNat) n

/-- Python slicing `l[a:b]` with integer bounds; never raises. -/
def pySliceZ {α : Type} (l : List α) (a b : ℤ) : List α :=
  (l.take (sliceIdx l.length b)).drop (sliceIdx l.length a)

/-- `np.pad(l, (ps, pe), 'constant')`: zero padding on both sides. -/
def npPad (l : List ℚ) (ps pe : ℕ) : List ℚ :=
  List.replicate ps 0 ++ l ++ List.replicate pe 0

/-- One data-gap insertion (biosignal.py lines 150-154):
`np.concatenate((sig[:g0], np.zeros(g1-g0), sig[g0:]))`. -/
def insertGap (l : List ℚ) (gap : ℕ × ℕ) : List ℚ :=
  l.take gap.1 ++ List.replicate (gap.2 - gap.1) 0 ++ l.drop gap.1

/-- Insert all data gaps in list order (ascending starts). -/
def insertGaps (l : List ℚ) (gaps : List (ℕ × ℕ)) : List ℚ :=
  gaps.foldl insertGap l

/-- One data-gap removal (biosignal.py lines 235-240): zero-length gaps are
skipped, otherwise `np.delete(sig, np.s_[g0:g1])`.  `np.delete` with a slice
removes nothing when the slice is empty, which the `max` captures. -/
def removeGap (l : List ℚ) (gap : ℕ × ℕ) : List ℚ :=
  if gap.1 = gap.2 then l else l.take gap.1 ++ l.drop (max gap.1 gap.2)

/-- Remove all data gaps in reverse list order (`reversed(chan['data_gaps'])`). -/
def removeGaps (l : List ℚ) (gaps : List (ℕ × ℕ)) : List ℚ :=
  gaps.reverse.foldl removeGap l

/-- `np.mean(ls, axis=0)`: elementwise arithmetic mean of equally long rows;
raises for an empty or ragged stack. -/
def npMean (ls : List (List ℚ)) : Except PyErr (List ℚ) :=
  match ls with
  | [] => .error .valueError
  | w :: rest =>
    if rest.all (fun s => s.length == w.length) then
      .ok ((List.range w.length).map (fun i =>
        ((w :: rest).map (fun s => s.getD i 0)).sum / ((w :: rest).length : ℚ)))
    else .error .valueError

/-- Numpy elementwise subtraction with broadcasting of length-1 operands;
raises on other shape mismatches. -/
def npSub (a b : List ℚ) : Except PyErr (List ℚ) :=
  if a.length = b.length then .ok (List.zipWith (fun x y => x - y) a b)
  else if b.length = 1 then .ok (a.map (fun x => x - b.getD 0 0))
  else if a.length = 1 then .ok (b.map (fun y => a.getD 0 0 - y))
  else .error .valueError

/-- A Butterworth design request as handed to `scipy.signal.butter`:
`signal.butter(N, Wn, btype, output='sos', fs=fs)`. -/
structure ButterReq where
  N : ℕ
  Wn : List ℚ
  btype : String
  fs : ℚ
  deriving DecidableEq, Repr

/-- Pythonic `N or default` on an optional order: `None` and `0` are falsy. -/
def pyOrN (N : Option ℕ) (d : ℕ) : ℕ :=
  match N with
  | some n => if n ≠ 0 then n else d
  | none => d

/-- A stored filter parameter set `{'Wn': ..., 'N': ...}`. -/
structure FilterParams where
  Wn : ℚ
  N : Option ℕ
  deriving DecidableEq, Repr

/-- The global `biosignal['filters']` dictionary. -/
structure DefaultFilters where
  highpass : Option FilterParams
  lowpass : Option FilterParams
  notch : Option FilterParams
  N_pass : ℕ
  N_stop : ℕ
  padding : ℚ
  deriving DecidableEq, Repr

/-- The module-level initial value of `biosignal['filters']`. -/
def defaultFilters : DefaultFilters := ⟨none, none, none, 6, 9, 0⟩

/-- Per-channel filter overrides: critical frequency or `None` per sub-filter. -/
structure ChanFilters where
  highpass : Option ℚ
  lowpass : Option ℚ
  notch : Option ℚ
  deriving DecidableEq, Repr

/-- Pythonic truthiness of an optional critical frequency:
`None` and `0` are falsy. -/
def truthy : Option ℚ → Bool
  | none => false
  | some w => w ≠ 0

/-- A channel derivation definition as passed from the JS side. -/
structure Channel where
  active : Option ℤ
  common_ref : Bool
  data_gaps : List (ℕ × ℕ)
  start : ℤ
  endI : ℤ
  filter_len : ℤ
  filters : Option ChanFilters
  reference : List ℤ
  type : String
  trim_start : ℤ
  trim_end : ℤ
  deriving DecidableEq, Repr

/-- The global `biosignal` state used by `biosignal_calculate_signals`:
data position, header field indices, the unwritten-watermark sentinel,
default filters and the attached input buffers. -/
structure BiosignalState where
  data_pos : ℕ
  f_sampling_rate : ℕ
  f_updated_start : ℕ
  f_updated_end : ℕ
  empty_field : ℚ
  filters : DefaultFilters
  input : Option (List (List ℚ))
  deriving DecidableEq, Repr

/-- `act_len = len(act) - biosignal['data_pos']` (line 124). -/
def actLen (st : BiosignalState) (act : List ℚ) : ℤ :=
  (act.length : ℤ) - st.data_pos

/-- `pad_start` (lines 127-129): zeros prepended for a negative start. -/
def padStart (c : Channel) : ℤ :=
  if c.start < 0 then -c.start else 0

/-- `pad_end` (lines 130-132): zeros appended for an end beyond the buffer. -/
def padEnd (st : BiosignalState) (act : List ℚ) (c : Channel) : ℤ :=
  if c.endI > actLen st act then c.endI - actLen st act else 0

/-- `start_pos = data_pos + start + pad_start` (line 133). -/
def startPos (st : BiosignalState) (c : Channel) : ℤ :=
  st.data_pos + c.start + padStart c

/-- `end_pos = data_pos + end - pad_end` (line 140). -/
def endPos (st : BiosignalState) (act : List ℚ) (c : Channel) : ℤ :=
  st.data_pos + c.endI - padEnd st act c

/-- The extracted, zero-padded window of the active buffer (line 147):
`np.pad(act[start_pos:end_pos], (pad_start, pad_end), 'constant')`. -/
def extractWindow (st : BiosignalState) (act : List ℚ) (c : Channel) : List ℚ :=
  npPad (pySliceZ act (startPos st c) (endPos st act c))
    (padStart c).toNat (padEnd st act c).toNat

/-- `biosignal_get_filter_coefficients` (lines 322-349): dispatch to
`signal.butter` with the kind-specific default order; a notch is realized
as a bandstop over `[Wn-1, Wn+1]`; unknown kinds return `None`. -/
def biosignal_get_filter_coefficients (df : DefaultFilters) (btype : String)
    (Wn : ℚ) (fs : ℚ) (N : Option ℕ) : Option ButterReq :=
  let N_pass := df.N_pass
  let N_stop := df.N_stop
  if btype = ("highpass") then some ⟨pyOrN N N_pass, [Wn], ("highpass"), fs⟩
  else if btype = ("lowpass") then some ⟨pyOrN N N_pass, [Wn], ("lowpass"), fs⟩
  else if btype = ("notch") then
    some ⟨pyOrN N N_stop, [Wn - 1, Wn + 1], ("bandstop"), fs⟩
  else none

/-- The filter block of `biosignal_calculate_signals` (lines 190-233):
choose the design for each sub-filter from the per-channel overrides
(`None`/`0` are falsy and leave the sub-filter unset; the default-filter
branch in the source is commented out) and apply the set ones in
highpass → lowpass → notch order by `sosfiltfilt` (modeled by `g`). -/
def applyFilters (df : DefaultFilters) (g : ButterReq → List ℚ → List ℚ)
    (sig_fs : ℚ) (fopt : Option ChanFilters) (sig : List ℚ) : List ℚ :=
  let filt_hp : Option ButterReq :=
    match fopt with
    | none => none
    | some f =>
      if truthy f.highpass then
        biosignal_get_filter_coefficients df ("highpass") (f.highpass.getD 0) sig_fs none
      else none
  let filt_lp : Option ButterReq :=
    match fopt with
    | none => none
    | some f =>
      if truthy f.lowpass then
        biosignal_get_filter_coefficients df ("lowpass") (f.lowpass.getD 0) sig_fs none
      else none
  let filt_notch : Option ButterReq :=
    match fopt with
    | none => none
    | some f =>
      if truthy f.notch then
        biosignal_get_filter_coefficients df ("notch") (f.notch.getD 0) sig_fs none
      else none
  let sig1 := match filt_hp with | some co => g co sig | none => sig
  let sig2 := match filt_lp with | some co => g co sig1 | none => sig1
  match filt_notch with | some co => g co sig2 | none => sig2

/-- Windows of all listed reference sources (lines 168-175), in order. -/
def refWindows (input_sigs : List (List ℚ)) (sp ep : ℤ) (ps pe : ℕ) :
    List ℤ → Except PyErr (List (List ℚ))
  | [] => .ok []
  | r :: rs =>
    match pyIdx input_sigs r with
    | .error e => .error e
    | .ok buf =>
      match refWindows input_sigs sp ep ps pe rs with
      | .error e => .error e
      | .ok ws => .ok (npPad (pySliceZ buf sp ep) ps pe :: ws)

/-- The reference-signal block of `biosignal_calculate_signals`
(lines 155-187): reuse a cached common reference when possible, otherwise
zeros / one window / the mean of several windows, gap-filled when the
reference list is nonempty, and cached when the channel is common-ref.
`n` is the length of the (gap-filled) active window. -/
def refSignal (input_sigs : List (List ℚ)) (sp ep : ℤ) (ps pe : ℕ)
    (gaps : List (ℕ × ℕ)) (cache : List (String × List ℚ)) (c : Channel)
    (n : ℕ) : Except PyErr (List ℚ × List (String × List ℚ)) :=
  match (if c.common_ref then List.lookup c.type cache else none) with
  | some v => .ok (v, cache)
  | none =>
    let base : Except PyErr (List ℚ) :=
      match c.reference with
      | [] => .ok (List.replicate n 0)
      | [r] =>
        match pyIdx input_sigs r with
        | .error e => .error e
        | .ok buf => .ok (npPad (pySliceZ buf sp ep) ps pe)
      | rs =>
        match refWindows input_sigs sp ep ps pe rs with
        | .error e => .error e
        | .ok ws => npMean ws
    match base with
    | .error e => .error e
    | .ok sr0 =>
      let sr := if c.reference.length > 0 then insertGaps sr0 gaps else sr0
      .ok (sr, if c.common_ref then (c.type, sr) :: cache else cache)

/-- The output-fitting step (lines 244-247): when the signal is longer than
the destination buffer, slice off the excess from the end
(`sig[:-(len(sig)-len(output[idx]))]`). -/
def fitToOutput (sig : List ℚ) (cap : ℕ) : List ℚ :=
  if sig.length > cap then pySliceZ sig 0 (-((sig.length : ℤ) - cap)) else sig

/-- Outcome of processing one channel of the loop body. -/
inductive ChanStep where
  | notLoaded : ChanStep
  | next : List (List ℚ) → List (String × List ℚ) → ChanStep
  deriving DecidableEq

/-- One iteration of the channel loop of `biosignal_calculate_signals`
(lines 118-249): skip empty channels, read the header, run the freshness
gate (not-loaded on failure), extract / gap-fill / reference / filter /
de-gap / trim / fit, and assign into `output[idx]` (the pyodide buffer
`assign` raises when the sizes differ). -/
def processChannel (st : BiosignalState) (g : ButterReq → List ℚ → List ℚ)
    (input_sigs : List (List ℚ)) (output : List (List ℚ))
    (cache : List (String × List ℚ)) (idx : ℕ) (c : Channel) :
    Except PyErr ChanStep :=
  match c.active with
  | none => .ok (.next output cache)
  | some a =>
    match pyIdx input_sigs a with
    | .error e => .error e
    | .ok act =>
      match pyIdxN act st.f_sampling_rate with
      | .error e => .error e
      | .ok sig_fs =>
        match pyIdxN act st.f_updated_start with
        | .error e => .error e
        | .ok us =>
          if us > (startPos st c : ℚ) ∨ us = st.empty_field then .ok .notLoaded
          else
            match pyIdxN act st.f_updated_end with
            | .error e => .error e
            | .ok ue =>
              if ue < (actLen st act : ℚ) ∧ ue < (endPos st act c : ℚ) then
                .ok .notLoaded
              else
                let sig_act := insertGaps (extractWindow st act c) c.data_gaps
                match refSignal input_sigs (startPos st c) (endPos st act c)
                    (padStart c).toNat (padEnd st act c).toNat c.data_gaps
                    cache c sig_act.length with
                | .error e => .error e
                | .ok rc =>
                  match npSub sig_act rc.1 with
                  | .error e => .error e
                  | .ok sig0 =>
                    let sig1 := applyFilters st.filters g sig_fs c.filters sig0
                    let sig2 := removeGaps sig1 c.data_gaps
                    let sig3 :=
                      if c.filter_len > 0 then pySliceZ sig2 c.trim_start c.trim_end
                      else sig2
                    match pyIdxN output idx with
                    | .error e => .error e
                    | .ok outBuf =>
                      let sig4 := fitToOutput sig3 outBuf.length
                      if sig4.length = outBuf.length then
                        .ok (.next (output.set idx sig4) rc.2)
                      else .error .valueError

/-- The channel loop of `biosignal_calculate_signals`: either every channel
is processed (success), or the freshness gate fires (not-loaded result with
the outputs written so far), or an exception escapes. -/
def calcLoop (st : BiosignalState) (g : ButterReq → List ℚ → List ℚ)
    (input_sigs : List (List ℚ)) :
    List Channel → ℕ → List (List ℚ) → List (String × List ℚ) →
    Except PyErr (PyResult × List (List ℚ))
  | [], _, output, _ => .ok (successRes, output)
  | c :: rest, idx, output, cache =>
    match processChannel st g input_sigs output cache idx c with
    | .error e => .error e
    | .ok .notLoaded => .ok (notLoadedRes, output)
    | .ok (.next output2 cache2) => calcLoop st g input_sigs rest (idx + 1) output2 cache2

/-- `biosignal_calculate_signals` (lines 70-258): fail fast when the input
is unset or empty, then run the channel loop against the js-side `output`
buffer list.  The result carries the final state of the output buffers. -/
def biosignal_calculate_signals (st : BiosignalState)
    (g : ButterReq → List ℚ → List ℚ) (channels : List Channel)
    (output : List (List ℚ)) : Except PyErr (PyResult × List (List ℚ)) :=
  match st.input with
  | none => .ok (inputNotSetRes, output)
  | some input_sigs =>
    if input_sigs.length = 0 then .ok (inputNotSetRes, output)
    else calcLoop st g input_sigs channels 0 output []

/-- The filters argument of `biosignal_filter_signal`. -/
structure FilterDict where
  highpass : Option FilterParams
  lowpass : Option FilterParams
  notch : Option FilterParams
  deriving DecidableEq, Repr

/-- The shape `{ 'success': bool, 'value': ..., 'error': ... }` returned by
`biosignal_filter_signal`. -/
structure PyResultV where
  success : Bool
  value : Option (List ℚ)
  error : Option String
  deriving DecidableEq, Repr

/-- Human-readable message of a modeled Python exception. -/
def pyErrMsg : PyErr → String
  | .indexError => "list index out of range"
  | .valueError => "value error"
  | .typeError => "type error"

/-- Highpass pass of `biosignal_filter_signal` (lines 288-295). -/
def hpStage (g : ButterReq → List ℚ → List ℚ) (df : DefaultFilters) (fs : ℚ)
    (f : FilterDict) (sig : List ℚ) : Except PyErr (List ℚ) :=
  match f.highpass with
  | none => .ok sig
  | some hp =>
    match biosignal_get_filter_coefficients df ("highpass") hp.Wn fs hp.N with
    | some sos => .ok (g sos sig)
    | none => .error .typeError

/-- Lowpass pass of `biosignal_filter_signal` (lines 296-303).  The source
reads `filters['highpass']['Wn']` and `filters['highpass']['N']` here; when
`highpass` is `None` that raises a `TypeError`. -/
def lpStage (g : ButterReq → List ℚ → List ℚ) (df : DefaultFilters) (fs : ℚ)
    (f : FilterDict) (sig : List ℚ) : Except PyErr (List ℚ) :=
  match f.lowpass with
  | none => .ok sig
  | some _ =>
    match f.highpass with
    | none => .error .typeError
    | some hp =>
      match biosignal_get_filter_coefficients df ("lowpass") hp.Wn fs hp.N with
      | some sos => .ok (g sos sig)
      | none => .error .typeError

/-- Notch pass of `biosignal_filter_signal` (lines 304-311); like the
lowpass pass it designs from `filters['highpass']`. -/
def notchStage (g : ButterReq → List ℚ → List ℚ) (df : DefaultFilters) (fs : ℚ)
    (f : FilterDict) (sig : List ℚ) : Except PyErr (List ℚ) :=
  match f.notch with
  | none => .ok sig
  | some _ =>
    match f.highpass with
    | none => .error .typeError
    | some hp =>
      match biosignal_get_filter_coefficients df ("notch") hp.Wn fs hp.N with
      | some sos => .ok (g sos sig)
      | none => .error .typeError

/-- Body of the `try` block of `biosignal_filter_signal` (lines 286-311). -/
def filterSignalBody (g : ButterReq → List ℚ → List ℚ) (df : DefaultFilters)
    (sig : List ℚ) (fs : ℚ) (f : FilterDict) : Except PyErr (List ℚ) := do
  let s1 ← hpStage g df fs f sig
  let s2 ← lpStage g df fs f s1
  notchStage g df fs f s2

/-- `biosignal_filter_signal` (lines 260-320): default filters substitute a
missing argument; the `try/except` converts any exception to a failure
result. -/
def biosignal_filter_signal (g : ButterReq → List ℚ → List ℚ)
    (df : DefaultFilters) (sig : List ℚ) (fs : ℚ)
    (filters0 : Option FilterDict) : PyResultV :=
  let f : FilterDict :=
    match filters0 with
    | none => ⟨df.highpass, df.lowpass, df.notch⟩
    | some ff => ff
  match filterSignalBody g df sig fs f with
  | .ok v => ⟨true, some v, none⟩
  | .error e => ⟨false, none, some (pyErrMsg e)⟩

/-- An ordered, non-overlapping, in-bounds data-gap list for a window of
`L` samples: each gap starts at or after the previous gap's end (`lo` is
the running lower bound), starts no later than it ends, and starts inside
the window as grown by the gaps inserted so far. -/
def gapsOK : ℕ → ℕ → List (ℕ × ℕ) → Bool
  | _, _, [] => true
  | lo, L, (a, b) :: rest =>
    decide (lo ≤ a) && decide (a ≤ b) && decide (a ≤ L) &&
      gapsOK b (L + (b - a)) rest

/-! ### Concrete instances used by counterexamples and witnesses

Each raw buffer below follows the header layout the source configures:
index 0 the sampling rate, index 1 the `updated_start` watermark, index 2
the `updated_end` watermark, data from `data_pos = 3` on; the sentinel for
an unwritten watermark is `-16777215`. -/

/-- State for the C1 counterexample: buffer 0 fully written, buffer 1
still unwritten (watermarks at the sentinel). -/
def stC1 : BiosignalState :=
  ⟨3, 0, 1, 2, -16777215, defaultFilters,
    some [[100, 0, 2, 10, 20], [100, -16777215, -16777215, 30, 40]]⟩

/-- Identity `sosfiltfilt` stand-in for the C1 instance (no filters fire). -/
def gC1 : ButterReq → List ℚ → List ℚ := fun _ s => s

/-- First C1 channel: reads the ready buffer 0. -/
def chC1a : Channel := ⟨some 0, false, [], 0, 2, 0, none, [], ("sig"), 0, 0⟩

/-- Second C1 channel: reads the unwritten buffer 1. -/
def chC1b : Channel := ⟨some 1, false, [], 0, 2, 0, none, [], ("sig"), 0, 0⟩

/-- State for the C2 failing input: a single attached buffer. -/
def stC2 : BiosignalState :=
  ⟨3, 0, 1, 2, -16777215, defaultFilters, some [[100, 0, 2, 10, 20]]⟩

/-- Identity `sosfiltfilt` stand-in for the C2 instance. -/
def gC2 : ButterReq → List ℚ → List ℚ := fun _ s => s

/-- C2 channel whose `active` index 1 is out of range for the one-buffer
input list: `input_sigs[chan['active']]` raises `IndexError`. -/
def chC2 : Channel := ⟨some 1, false, [], 0, 2, 0, none, [], ("sig"), 0, 0⟩

/-- State for the C3 witness: one buffer whose `updated_end` watermark (2
samples behind) makes any request with `end > 0` stale. -/
def stC3 : BiosignalState :=
  ⟨3, 0, 1, 2, -16777215, defaultFilters, some [[100, 0, 0, 10, 20]]⟩

/-- Identity `sosfiltfilt` stand-in for the C3 witness. -/
def gC3 : ButterReq → List ℚ → List ℚ := fun _ s => s

/-- C3 channel requesting `[0, 2)`, beyond the `updated_end = 0` watermark. -/
def chC3 : Channel := ⟨some 0, false, [], 0, 2, 0, none, [], ("sig"), 0, 0⟩

/-- State for the C4 counterexample: the process-wide default highpass
filter is set to `Wn = 1`. -/
def stC4 : BiosignalState :=
  ⟨3, 0, 1, 2, -16777215, ⟨some ⟨1, none⟩, none, none, 6, 9, 0⟩,
    some [[100, 0, 2, 10, 20]]⟩

/-- A `sosfiltfilt` stand-in for C4 that visibly changes any signal it is
applied to, so an applied default filter could not go unnoticed. -/
def gC4 : ButterReq → List ℚ → List ℚ := fun _ s => s.map (fun x => x + 100)

/-- C4 channel whose per-channel filter entries are all `None`. -/
def chC4 : Channel :=
  ⟨some 0, false, [], 0, 2, 0, some ⟨none, none, none⟩, [], ("sig"), 0, 0⟩

/-- The design request the default highpass filter of `stC4` would produce. -/
def hpReqC4 : ButterReq := ⟨6, [1], ("highpass"), 100⟩

/-- State for the C5 counterexample: two fully written buffers. -/
def stC5 : BiosignalState :=
  ⟨3, 0, 1, 2, -16777215, defaultFilters,
    some [[100, 0, 2, 10, 20], [100, 0, 2, 30, 40]]⟩

/-- Identity `sosfiltfilt` stand-in for the C5 instance. -/
def gC5 : ButterReq → List ℚ → List ℚ := fun _ s => s

/-- First C5 channel: common-ref channel of type `sig` referencing buffer 1. -/
def chC5a : Channel := ⟨some 0, true, [], 0, 2, 0, none, [1], ("sig"), 0, 0⟩

/-- Second C5 channel: same type and common-ref flag but an *empty*
reference list; it nevertheless receives the cached reference of `chC5a`. -/
def chC5b : Channel := ⟨some 1, true, [], 0, 2, 0, none, [], ("sig"), 0, 0⟩

/-- State for the C6 witness (its `input` is irrelevant to extraction). -/
def stC6 : BiosignalState := ⟨3, 0, 1, 2, -16777215, defaultFilters, none⟩

/-- A raw buffer with four data samples for the C6 witness. -/
def actC6 : List ℚ := [100, 0, 4, 10, 20, 30, 40]

/-- C6 channel requesting two samples before the buffer start. -/
def chC6a : Channel := ⟨some 0, false, [], -2, 2, 0, none, [], ("sig"), 0, 0⟩

/-- C6 channel requesting two samples past the buffer end. -/
def chC6b : Channel := ⟨some 0, false, [], 1, 6, 0, none, [], ("sig"), 0, 0⟩

/-- Channel for the C5 witness: a fresh (non-common-ref) two-source
reference. -/
def refChanW : Channel := ⟨some 0, false, [], 0, 2, 0, none, [0, 1], ("sig"), 0, 0⟩

end BiosignalModel

namespace BiosignalModel

/-! ### Helper lemmas -/

theorem insertGap_length (l : List ℚ) (a b : ℕ) (ha : a ≤ l.length) :
    (insertGap l (a, b)).length = l.length + (b - a) := by
  simp [insertGap]
  omega

theorem removeGap_insertGap (l : List ℚ) (a b : ℕ) (hab : a ≤ b)
    (ha : a ≤ l.length) : removeGap (insertGap l (a, b)) (a, b) = l := by
  rcases Nat.eq_or_lt_of_le hab with h | h
  · subst h
    simp [insertGap, removeGap]
  · have hne : a ≠ b := Nat.ne_of_lt h
    have hA : (l.take a).length = a := by simp [ha]
    have hAB : (l.take a ++ List.replicate (b - a) (0 : ℚ)).length = b := by
      simp [hA]
      omega
    simp only [removeGap, insertGap, hne, if_false]
    rw [Nat.max_eq_right hab]
    rw [List.append_assoc, List.take_left' hA, ← List.append_assoc,
      List.drop_left' hAB, List.take_append_drop]

theorem gaps_roundtrip_aux (gaps : List (ℕ × ℕ)) :
    ∀ (lo : ℕ) (sig : List ℚ), gapsOK lo sig.length gaps = true →
      removeGaps (insertGaps sig gaps) gaps = sig := by
  induction gaps with
  | nil =>
    intro lo sig _
    simp [insertGaps, removeGaps]
  | cons g gs ih =>
    intro lo sig hOK
    obtain ⟨a, b⟩ := g
    simp only [gapsOK, Bool.and_eq_true, decide_eq_true_eq] at hOK
    obtain ⟨⟨⟨h1, h2⟩, h3⟩, h4⟩ := hOK
    have hlen : (insertGap sig (a, b)).length = sig.length + (b - a) :=
      insertGap_length sig a b h3
    have hrec := ih b (insertGap sig (a, b)) (by rw [hlen]; exact h4)
    calc removeGaps (insertGaps sig ((a, b) :: gs)) ((a, b) :: gs)
        = removeGap (removeGaps (insertGaps (insertGap sig (a, b)) gs) gs) (a, b) := by
          simp [removeGaps, insertGaps, List.foldl_append]
      _ = removeGap (insertGap sig (a, b)) (a, b) := by rw [hrec]
      _ = sig := removeGap_insertGap sig a b h2 h3

/-! ### Claim theorems -/

/-- C7: for every signal array and every ordered, non-overlapping,
in-bounds gap list, inserting the zero-filled gap stretches in ascending
start order (`insertGaps`, as the derivation loop does before filtering)
and then removing them in descending start order (`removeGaps`, as it does
after filtering) is the identity: with no filtering in between the result
equals the original windowed signal exactly. -/
theorem gap_insert_remove_roundtrip (sig : List ℚ) (gaps : List (ℕ × ℕ))
    (h : gapsOK 0 sig.length gaps = true) :
    removeGaps (insertGaps sig gaps) gaps = sig :=
  gaps_roundtrip_aux gaps 0 sig h

/-- Witness for C7 at a concrete signal and a two-gap list. -/
theorem gap_insert_remove_roundtrip_witness :
    gapsOK 0 (List.length [(1 : ℚ), 2, 3]) [(1, 3), (4, 6)] = true ∧
      removeGaps (insertGaps [(1 : ℚ), 2, 3] [(1, 3), (4, 6)]) [(1, 3), (4, 6)] =
        [(1 : ℚ), 2, 3] :=
  ⟨by decide, gap_insert_remove_roundtrip [(1 : ℚ), 2, 3] [(1, 3), (4, 6)] (by decide)⟩

/-- C8: when the processed signal is longer than the destination output
buffer (capacity `cap`), the fit step drops exactly the trailing excess:
the result is the untruncated signal's prefix of length `cap` (so the
first `cap` samples match the untruncated result exactly and only trailing
samples are dropped), and its length equals the destination's, so the
subsequent buffer assignment succeeds rather than raising. -/
theorem fit_to_output_truncates_tail (sig : List ℚ) (cap : ℕ)
    (h : cap < sig.length) :
    fitToOutput sig cap = sig.take cap ∧
      (fitToOutput sig cap).length = cap ∧
      sig.take cap ++ sig.drop cap = sig := by
  have hslice : sliceIdx sig.length ((cap : ℤ) - sig.length) = cap := by
    simp only [sliceIdx]
    rw [if_pos (by omega)]
    omega
  have hz : sliceIdx sig.length 0 = 0 := by simp [sliceIdx]
  have hfit : fitToOutput sig cap = sig.take cap := by
    rw [fitToOutput, if_pos h]
    simp [pySliceZ, hslice, hz]
  refine ⟨hfit, ?_, List.take_append_drop cap sig⟩
  rw [hfit]
  simp
  omega

/-- Witness for C8: a five-sample signal against a three-sample buffer. -/
theorem fit_to_output_truncates_tail_witness :
    3 < List.length [(1 : ℚ), 2, 3, 4, 5] ∧
      fitToOutput [(1 : ℚ), 2, 3, 4, 5] 3 = List.take 3 [(1 : ℚ), 2, 3, 4, 5] ∧
      (fitToOutput [(1 : ℚ), 2, 3, 4, 5] 3).length = 3 ∧
      List.take 3 [(1 : ℚ), 2, 3, 4, 5] ++ List.drop 3 [(1 : ℚ), 2, 3, 4, 5] =
        [(1 : ℚ), 2, 3, 4, 5] :=
  ⟨by decide, fit_to_output_truncates_tail [(1 : ℚ), 2, 3, 4, 5] 3 (by decide)⟩

/-- C6: a requested range starting at `-k` yields a window of exactly `k`
leading zero samples followed, bit for bit, by the in-range buffer samples
(`act[data_pos : data_pos + end]`); symmetrically, a range extending `m`
samples past the logical buffer end yields exactly `m` trailing zeros after
the in-range samples. -/
theorem extract_window_zero_padding (st : BiosignalState) (act : List ℚ)
    (c : Channel) (k m : ℕ) :
    (c.start = -(k : ℤ) → 0 < k → c.endI ≤ actLen st act →
      extractWindow st act c =
        List.replicate k (0 : ℚ) ++
          pySliceZ act (st.data_pos : ℤ) ((st.data_pos : ℤ) + c.endI)) ∧
    (0 ≤ c.start → c.endI = actLen st act + m → 0 < m →
      extractWindow st act c =
        pySliceZ act ((st.data_pos : ℤ) + c.start)
            ((st.data_pos : ℤ) + actLen st act) ++ List.replicate m (0 : ℚ)) := by
  constructor
  · intro h1 h2 h3
    have hps : padStart c = (k : ℤ) := by
      simp only [padStart, h1]
      rw [if_pos (by omega)]
      omega
    have hpe : padEnd st act c = 0 := by
      simp only [padEnd]
      rw [if_neg (by omega)]
    have hsp : startPos st c = (st.data_pos : ℤ) := by
      simp only [startPos, hps, h1]
      omega
    have hep : endPos st act c = (st.data_pos : ℤ) + c.endI := by
      simp only [endPos, hpe]
      omega
    rw [extractWindow, hsp, hep, hps, hpe]
    simp [npPad]
  · intro h1 h2 h3
    have hps : padStart c = 0 := by
      simp only [padStart]
      rw [if_neg (by omega)]
    have hpe : padEnd st act c = (m : ℤ) := by
      simp only [padEnd, h2]
      rw [if_pos (by omega)]
      omega
    have hsp : startPos st c = (st.data_pos : ℤ) + c.start := by
      simp only [startPos, hps]
      omega
    have hep : endPos st act c = (st.data_pos : ℤ) + actLen st act := by
      simp only [endPos, hpe, h2]
      omega
    rw [extractWindow, hsp, hep, hps, hpe]
    simp [npPad]

/-- C9: `biosignal_get_filter_coefficients` designs a notch as a
Butterworth bandstop over `[Wn-1, Wn+1]` with the given order, defaulting
to 9 when the order is absent, and designs highpass/lowpass as
single-cutoff Butterworth filters with the given order, defaulting to 6
when the order is absent. -/
theorem filter_coefficient_defaults (Wn fs : ℚ) (n : ℕ) :
    (biosignal_get_filter_coefficients defaultFilters ("notch") Wn fs none =
      some ⟨9, [Wn - 1, Wn + 1], ("bandstop"), fs⟩) ∧
    (n ≠ 0 →
      biosignal_get_filter_coefficients defaultFilters ("notch") Wn fs (some n) =
        some ⟨n, [Wn - 1, Wn + 1], ("bandstop"), fs⟩) ∧
    (biosignal_get_filter_coefficients defaultFilters ("highpass") Wn fs none =
      some ⟨6, [Wn], ("highpass"), fs⟩) ∧
    (n ≠ 0 →
      biosignal_get_filter_coefficients defaultFilters ("highpass") Wn fs (some n) =
        some ⟨n, [Wn], ("highpass"), fs⟩) ∧
    (biosignal_get_filter_coefficients defaultFilters ("lowpass") Wn fs none =
      some ⟨6, [Wn], ("lowpass"), fs⟩) ∧
    (n ≠ 0 →
      biosignal_get_filter_coefficients defaultFilters ("lowpass") Wn fs (some n) =
        some ⟨n, [Wn], ("lowpass"), fs⟩) := by
  refine ⟨?_, fun h => ?_, ?_, fun h => ?_, ?_, fun h => ?_⟩ <;>
    simp [biosignal_get_filter_coefficients, pyOrN, defaultFilters, *]

/-- Witness for C9 at `Wn = 50`, `fs = 250`, order 4. -/
theorem filter_coefficient_defaults_witness :
    biosignal_get_filter_coefficients defaultFilters ("notch") 50 250 none =
      some ⟨9, [49, 51], ("bandstop"), 250⟩ ∧
    ((4 : ℕ) ≠ 0 ∧
      biosignal_get_filter_coefficients defaultFilters ("highpass") 50 250 (some 4) =
        some ⟨4, [50], ("highpass"), 250⟩) := by
  refine ⟨?_, by norm_num, ?_⟩
  · have h := (filter_coefficient_defaults 50 250 4).1
    norm_num at h
    exact h
  · exact (filter_coefficient_defaults 50 250 4).2.2.2.1 (by norm_num)

/-- C10: in `biosignal_filter_signal`, when the highpass entry is set, the
enabled lowpass and notch passes design their coefficients from the
highpass entry's `Wn` and `N` rather than from their own entries, so the
lowpass/notch entries' values never affect the result (only whether they
are present does), and with all three entries set the three designs all
derive from the highpass parameters. -/
theorem filter_signal_designs_from_highpass (g : ButterReq → List ℚ → List ℚ)
    (df : DefaultFilters) (sig : List ℚ) (fs : ℚ) (hp : FilterParams)
    (f f' : FilterDict) (hf : f.highpass = some hp) (hf' : f'.highpass = some hp)
    (hlp : f.lowpass.isSome = f'.lowpass.isSome)
    (hnc : f.notch.isSome = f'.notch.isSome) :
    biosignal_filter_signal g df sig fs (some f) =
      biosignal_filter_signal g df sig fs (some f') ∧
    (∀ lp nc : FilterParams,
      biosignal_filter_signal g df sig fs (some ⟨some hp, some lp, some nc⟩) =
        ⟨true, some (g ⟨pyOrN hp.N df.N_stop, [hp.Wn - 1, hp.Wn + 1], ("bandstop"), fs⟩
          (g ⟨pyOrN hp.N df.N_pass, [hp.Wn], ("lowpass"), fs⟩
            (g ⟨pyOrN hp.N df.N_pass, [hp.Wn], ("highpass"), fs⟩ sig))), none⟩) := by
  constructor
  · obtain ⟨fh, fl, fn⟩ := f
    obtain ⟨fh', fl', fn'⟩ := f'
    simp only at hf hf' hlp hnc
    subst hf hf'
    cases fl <;> cases fl' <;> cases fn <;> cases fn' <;>
      simp_all [biosignal_filter_signal, filterSignalBody, hpStage, lpStage, notchStage,
        biosignal_get_filter_coefficients, pyOrN, Except.instMonad, Except.bind, Bind.bind]
  · intro lp nc
    simp [biosignal_filter_signal, filterSignalBody, hpStage, lpStage, notchStage,
      biosignal_get_filter_coefficients, pyOrN, Except.instMonad, Except.bind, Bind.bind]

/-- Witness for C10: two filter dictionaries sharing the highpass entry but
with different lowpass/notch frequencies give identical results, shown at a
recording `sosfiltfilt` stand-in. -/
theorem filter_signal_designs_from_highpass_witness :
    (FilterDict.mk (some ⟨10, some 3⟩) (some ⟨40, none⟩) (some ⟨50, none⟩)).highpass =
      some ⟨10, some 3⟩ ∧
    biosignal_filter_signal (fun co s => co.fs :: s) defaultFilters [7] 250
        (some ⟨some ⟨10, some 3⟩, some ⟨40, none⟩, some ⟨50, none⟩⟩) =
      biosignal_filter_signal (fun co s => co.fs :: s) defaultFilters [7] 250
        (some ⟨some ⟨10, some 3⟩, some ⟨70, some 2⟩, some ⟨60, some 5⟩⟩) :=
  ⟨rfl,
    (filter_signal_designs_from_highpass (fun co s => co.fs :: s) defaultFilters [7] 250
      ⟨10, some 3⟩ ⟨some ⟨10, some 3⟩, some ⟨40, none⟩, some ⟨50, none⟩⟩
      ⟨some ⟨10, some 3⟩, some ⟨70, some 2⟩, some ⟨60, some 5⟩⟩ rfl rfl rfl rfl).1⟩

/-- C4 (amended): in the derivation loop a per-channel sub-filter entry of
`None` behaves exactly like an explicit `0`: both are falsy and disable
that sub-filter, so a channel with all entries falsy is not filtered at
all; the process-wide default filter entries are never consulted (the
default-filter branch is commented out in the source) — only the default
orders `N_pass`/`N_stop` enter the designs of explicitly enabled
sub-filters. -/
theorem falsy_filter_disables_and_defaults_unused (df df' : DefaultFilters)
    (g : ButterReq → List ℚ → List ℚ) (fs : ℚ) (f : ChanFilters)
    (sig : List ℚ) :
    (truthy f.highpass = false → truthy f.lowpass = false →
      truthy f.notch = false → applyFilters df g fs (some f) sig = sig) ∧
    (df.N_pass = df'.N_pass → df.N_stop = df'.N_stop →
      applyFilters df g fs (some f) sig = applyFilters df' g fs (some f) sig) := by
  constructor
  · intro h1 h2 h3
    simp [applyFilters, h1, h2, h3]
  · intro h1 h2
    simp only [applyFilters, biosignal_get_filter_coefficients, h1, h2]

/-- Witness for C4 (amended): a channel whose highpass override is `None`
and whose lowpass override is an explicit `0` is left unfiltered, even
though the defaults name a highpass filter; and changing the default
frequencies (keeping the default orders) never changes the outcome. -/
theorem falsy_filter_disables_and_defaults_unused_witness :
    (truthy (ChanFilters.mk none (some 0) none).highpass = false ∧
      applyFilters ⟨some ⟨1, none⟩, none, none, 6, 9, 0⟩ (fun _ s => s.map (fun x => x + 100))
        100 (some ⟨none, some 0, none⟩) [10, 20] = [10, 20]) ∧
    applyFilters ⟨some ⟨1, none⟩, none, none, 6, 9, 0⟩ (fun _ s => s.map (fun x => x + 100))
        100 (some ⟨none, some 0, none⟩) [10, 20] =
      applyFilters ⟨some ⟨2, some 5⟩, some ⟨30, none⟩, none, 6, 9, 0⟩
        (fun _ s => s.map (fun x => x + 100)) 100 (some ⟨none, some 0, none⟩) [10, 20] :=
  ⟨⟨by decide,
    (falsy_filter_disables_and_defaults_unused ⟨some ⟨1, none⟩, none, none, 6, 9, 0⟩
      ⟨some ⟨1, none⟩, none, none, 6, 9, 0⟩ (fun _ s => s.map (fun x => x + 100)) 100
      ⟨none, some 0, none⟩ [10, 20]).1 (by decide) (by decide) (by decide)⟩,
    (falsy_filter_disables_and_defaults_unused ⟨some ⟨1, none⟩, none, none, 6, 9, 0⟩
      ⟨some ⟨2, some 5⟩, some ⟨30, none⟩, none, 6, 9, 0⟩
      (fun _ s => s.map (fun x => x + 100)) 100 ⟨none, some 0, none⟩ [10, 20]).2 rfl rfl⟩

/-- Inversion of a loop-continuing channel step: either the channel was
empty and nothing changed, or its freshness gate passed — in particular
the `updated_end` check failed to fire — and only the channel's own output
index was written. -/
theorem processChannel_next_inv (st : BiosignalState)
    (g : ButterReq → List ℚ → List ℚ) (input_sigs : List (List ℚ))
    (output : List (List ℚ)) (cache : List (String × List ℚ)) (idx : ℕ)
    (c : Channel) (output2 : List (List ℚ)) (cache2 : List (String × List ℚ))
    (h : processChannel st g input_sigs output cache idx c =
      .ok (.next output2 cache2)) :
    (c.active = none ∧ output2 = output) ∨
      (∃ a act ue, c.active = some a ∧ pyIdx input_sigs a = .ok act ∧
        pyIdxN act st.f_updated_end = .ok ue ∧
        ¬(ue < (actLen st act : ℚ) ∧ ue < (endPos st act c : ℚ)) ∧
        ∃ v, output2 = output.set idx v) := by
  unfold processChannel at h
  cases hA : c.active with
  | none =>
    simp only [hA, Except.ok.injEq, ChanStep.next.injEq] at h
    exact Or.inl ⟨rfl, h.1.symm⟩
  | some a =>
    simp only [hA] at h
    cases hB : pyIdx input_sigs a with
    | error e => simp [hB] at h
    | ok act =>
      simp only [hB] at h
      cases hC : pyIdxN act st.f_sampling_rate with
      | error e => simp [hC] at h
      | ok sig_fs =>
        simp only [hC] at h
        cases hD : pyIdxN act st.f_updated_start with
        | error e => simp [hD] at h
        | ok us =>
          simp only [hD] at h
          by_cases hE : us > (startPos st c : ℚ) ∨ us = st.empty_field
          · rw [if_pos hE] at h
            simp at h
          · rw [if_neg hE] at h
            cases hF : pyIdxN act st.f_updated_end with
            | error e => simp [hF] at h
            | ok ue =>
              simp only [hF] at h
              by_cases hG : ue < (actLen st act : ℚ) ∧ ue < (endPos st act c : ℚ)
              · rw [if_pos hG] at h
                simp at h
              · rw [if_neg hG] at h
                cases hH : refSignal input_sigs (startPos st c) (endPos st act c)
                    (padStart c).toNat (padEnd st act c).toNat c.data_gaps cache c
                    (insertGaps (extractWindow st act c) c.data_gaps).length with
                | error e => simp [hH] at h
                | ok rc =>
                  simp only [hH] at h
                  cases hI : npSub (insertGaps (extractWindow st act c) c.data_gaps)
                      rc.1 with
                  | error e => simp [hI] at h
                  | ok sig0 =>
                    simp only [hI] at h
                    cases hJ : pyIdxN output idx with
                    | error e => simp [hJ] at h
                    | ok outBuf =>
                      simp only [hJ] at h
                      split at h <;> split at h
                      all_goals
                        first
                        | (simp only [Except.ok.injEq, ChanStep.next.injEq] at h
                           exact Or.inr ⟨a, act, ue, rfl, hB, hF, hG, _, h.1.symm⟩)
                        | simp at h

/-- A channel step that continues the loop can change the output list only
at the channel's own index. -/
theorem processChannel_next_cases (st : BiosignalState)
    (g : ButterReq → List ℚ → List ℚ) (input_sigs : List (List ℚ))
    (output : List (List ℚ)) (cache : List (String × List ℚ)) (idx : ℕ)
    (c : Channel) (output2 : List (List ℚ)) (cache2 : List (String × List ℚ))
    (h : processChannel st g input_sigs output cache idx c =
      .ok (.next output2 cache2)) :
    output2 = output ∨ ∃ v, output2 = output.set idx v := by
  rcases processChannel_next_inv st g input_sigs output cache idx c output2 cache2 h with
    ⟨-, he⟩ | ⟨-, -, -, -, -, -, -, v, he⟩
  · exact Or.inl he
  · exact Or.inr ⟨v, he⟩

/-- When the loop ends with the not-loaded failure there is a concrete
failing channel position `idx + k`: the channel at offset `k` is the one
whose freshness gate returned the not-loaded step (against the outputs and
cache as they stood at that moment, `outMid`/`cacheMid`), the loop
returned right there with `out2 = outMid`, the outputs keep their length,
and every output slot from the failing position on still holds its initial
value — only channels strictly before the failing one were written. -/
theorem calcLoop_notLoaded_front (st : BiosignalState)
    (g : ButterReq → List ℚ → List ℚ) (input_sigs : List (List ℚ)) :
    ∀ (channels : List Channel) (idx : ℕ) (output : List (List ℚ))
      (cache : List (String × List ℚ)) (out2 : List (List ℚ)),
      calcLoop st g input_sigs channels idx output cache =
        .ok (notLoadedRes, out2) →
      ∃ k, ∃ hk : k < channels.length, ∃ outMid cacheMid,
        processChannel st g input_sigs outMid cacheMid (idx + k)
            (channels.get ⟨k, hk⟩) = .ok .notLoaded ∧
        out2 = outMid ∧
        out2.length = output.length ∧
        out2.drop (idx + k) = output.drop (idx + k) := by
  intro channels
  induction channels with
  | nil =>
    intro idx output cache out2 h
    simp only [calcLoop] at h
    exfalso
    simp [successRes, notLoadedRes] at h
  | cons c rest ih =>
    intro idx output cache out2 h
    simp only [calcLoop] at h
    cases hp : processChannel st g input_sigs output cache idx c with
    | error e =>
      rw [hp] at h
      exact Except.noConfusion h
    | ok step =>
      rw [hp] at h
      cases step with
      | notLoaded =>
        simp only [Except.ok.injEq, Prod.mk.injEq] at h
        obtain ⟨-, h2⟩ := h
        subst h2
        refine ⟨0, by simp, output, cache, ?_, rfl, rfl, rfl⟩
        simpa using hp
      | next o2 κ2 =>
        obtain ⟨k, hk, outMid, cacheMid, hfail, hout, hlen, hdrop⟩ :=
          ih (idx + 1) o2 κ2 out2 h
        have hlen2 : o2.length = output.length := by
          rcases processChannel_next_cases st g input_sigs output cache idx c
              o2 κ2 hp with heq | ⟨v, heq⟩
          · rw [heq]
          · rw [heq, List.length_set]
        have h1 : idx + (k + 1) = idx + 1 + k := by omega
        refine ⟨k + 1, by simp only [List.length_cons]; omega, outMid, cacheMid,
          ?_, hout, by rw [hlen, hlen2], ?_⟩
        · rw [h1]
          simpa using hfail
        · rw [h1, hdrop]
          rcases processChannel_next_cases st g input_sigs output cache idx c
              o2 κ2 hp with heq | ⟨v, heq⟩
          · rw [heq]
          · rw [heq, List.drop_set, if_pos (by omega)]

/-- C1 (amended): when `biosignal_calculate_signals` returns the not-ready
failure, there is a concrete failing channel index `k` — one whose
freshness gate returned not-loaded against the outputs as they stood —
the call returned immediately there (`out2 = outMid`), the output list
keeps its shape, and the failing channel's output slot and every later
slot still hold their initial values; only channels before the failing one
keep the values written for them (they are not rolled back, as the
counterexample shows). -/
theorem notReady_failure_no_writes_from_failed_channel (st : BiosignalState)
    (g : ButterReq → List ℚ → List ℚ) (channels : List Channel)
    (output out2 : List (List ℚ))
    (h : biosignal_calculate_signals st g channels output =
      .ok (notLoadedRes, out2)) :
    out2.length = output.length ∧
      ∃ inp, st.input = some inp ∧
        ∃ k, ∃ hk : k < channels.length, ∃ outMid cacheMid,
          processChannel st g inp outMid cacheMid k (channels.get ⟨k, hk⟩) =
            .ok .notLoaded ∧
          out2 = outMid ∧
          out2.drop k = output.drop k := by
  unfold biosignal_calculate_signals at h
  cases hin : st.input with
  | none =>
    exfalso
    simp only [hin] at h
    simp [inputNotSetRes, notLoadedRes] at h
  | some inp =>
    simp only [hin] at h
    split at h
    · exfalso
      simp [inputNotSetRes, notLoadedRes] at h
    · obtain ⟨k, hk, outMid, cacheMid, hfail, hout, hlen, hdrop⟩ :=
        calcLoop_notLoaded_front st g inp channels 0 output [] out2 h
      exact ⟨hlen, inp, rfl, k, hk, outMid, cacheMid, by simpa using hfail,
        hout, by simpa using hdrop⟩

/-- C1 (counterexample to the claim as stated): with buffer 0 ready and
buffer 1 unwritten, the call fails with the not-ready error, yet channel
0's output buffer has already been overwritten (from `[5, 5]` to
`[10, 20]`), so "no output buffer receives any write" is false. -/
theorem notReady_torn_write_occurs :
    biosignal_calculate_signals stC1 gC1 [chC1a, chC1b] [[5, 5], [5, 5]] =
      .ok (notLoadedRes, [[10, 20], [5, 5]]) ∧
      [[(10 : ℚ), 20], [5, 5]] ≠ [[(5 : ℚ), 5], [5, 5]] := by
  constructor
  · norm_num [biosignal_calculate_signals, calcLoop, processChannel, pyIdx,
      pyIdxN, actLen, padStart, padEnd, startPos, endPos, extractWindow, npPad,
      pySliceZ, sliceIdx, insertGaps, removeGaps, refSignal, npSub, applyFilters,
      fitToOutput, stC1, gC1, chC1a, chC1b, defaultFilters, Int.toNat,
      List.replicate]
  · simp

/-- Witness for C1 (amended), applying it to the concrete failing call:
the failing channel index exists, its gate step is exhibited, and the
outputs from it on are untouched. -/
theorem notReady_failure_no_writes_witness :
    biosignal_calculate_signals stC1 gC1 [chC1a, chC1b] [[5, 5], [5, 5]] =
      .ok (notLoadedRes, [[10, 20], [5, 5]]) ∧
      ([[(10 : ℚ), 20], [5, 5]] : List (List ℚ)).length =
        ([[(5 : ℚ), 5], [5, 5]] : List (List ℚ)).length ∧
      ∃ inp, stC1.input = some inp ∧
        ∃ k, ∃ hk : k < ([chC1a, chC1b] : List Channel).length,
          ∃ outMid cacheMid,
            processChannel stC1 gC1 inp outMid cacheMid k
                (([chC1a, chC1b] : List Channel).get ⟨k, hk⟩) =
              .ok .notLoaded ∧
            ([[(10 : ℚ), 20], [5, 5]] : List (List ℚ)) = outMid ∧
            ([[(10 : ℚ), 20], [5, 5]] : List (List ℚ)).drop k =
              ([[(5 : ℚ), 5], [5, 5]] : List (List ℚ)).drop k := by
  have hrun : biosignal_calculate_signals stC1 gC1 [chC1a, chC1b] [[5, 5], [5, 5]] =
      .ok (notLoadedRes, [[10, 20], [5, 5]]) := by
    norm_num [biosignal_calculate_signals, calcLoop, processChannel, pyIdx,
      pyIdxN, actLen, padStart, padEnd, startPos, endPos, extractWindow, npPad,
      pySliceZ, sliceIdx, insertGaps, removeGaps, refSignal, npSub, applyFilters,
      fitToOutput, stC1, gC1, chC1a, chC1b, defaultFilters, Int.toNat,
      List.replicate]
  exact ⟨hrun, notReady_failure_no_writes_from_failed_channel stC1 gC1
    [chC1a, chC1b] [[5, 5], [5, 5]] [[10, 20], [5, 5]] hrun⟩

/-- C2 (code bug evidence): a channel whose `active` index is out of range
makes `biosignal_calculate_signals` raise an uncaught `IndexError` instead
of returning a `{ success, error }` result — the `try/except` wrapper in
the source is commented out. -/
theorem boundary_uncaught_index_error :
    biosignal_calculate_signals stC2 gC2 [chC2] [[0, 0]] =
      .error .indexError := by
  norm_num [biosignal_calculate_signals, calcLoop, processChannel, pyIdx,
    stC2, gC2, chC2]

/-- The freshness gate fires for a stale channel: the `updated_end`
comparison in the source succeeds whenever the watermark is behind both
the logical buffer length and the requested end. -/
theorem stale_gate_fires (st : BiosignalState) (act : List ℚ) (c : Channel)
    (e : ℚ) (hlt : e < (actLen st act : ℚ)) (hend : e < (c.endI : ℚ)) :
    e < (endPos st act c : ℚ) := by
  have hdpq : (0 : ℚ) ≤ (st.data_pos : ℚ) := by positivity
  unfold endPos padEnd
  split_ifs with hcase
  · push_cast
    linarith
  · push_cast
    linarith

/-- Once a stale channel (end watermark behind both the buffer length and
the requested end) is in the processed list, the loop can only end with
the not-loaded failure (or an exception), never with success. -/
theorem calcLoop_stale (st : BiosignalState) (g : ButterReq → List ℚ → List ℚ)
    (input_sigs : List (List ℚ)) (c : Channel) (a : ℤ) (act : List ℚ) (e : ℚ)
    (ha : c.active = some a) (hact : pyIdx input_sigs a = .ok act)
    (hue : pyIdxN act st.f_updated_end = .ok e)
    (hlt : e < (actLen st act : ℚ)) (hend : e < (c.endI : ℚ)) :
    ∀ (channels : List Channel) (idx : ℕ) (output : List (List ℚ))
      (cache : List (String × List ℚ)) (r : PyResult) (out2 : List (List ℚ)),
      c ∈ channels →
      calcLoop st g input_sigs channels idx output cache = .ok (r, out2) →
      r = notLoadedRes := by
  have hgate : e < (endPos st act c : ℚ) := stale_gate_fires st act c e hlt hend
  intro channels
  induction channels with
  | nil =>
    intro idx output cache r out2 hmem
    exact absurd hmem (List.not_mem_nil c)
  | cons c0 rest ih =>
    intro idx output cache r out2 hmem hrun
    simp only [calcLoop] at hrun
    cases hp : processChannel st g input_sigs output cache idx c0 with
    | error e0 =>
      rw [hp] at hrun
      exact Except.noConfusion hrun
    | ok step =>
      rw [hp] at hrun
      cases step with
      | notLoaded =>
        simp only [Except.ok.injEq, Prod.mk.injEq] at hrun
        exact hrun.1.symm
      | next o2 κ2 =>
        rcases List.mem_cons.mp hmem with hc | hc
        · subst hc
          rcases processChannel_next_inv st g input_sigs output cache idx c o2 κ2 hp with
            ⟨hnone, -⟩ | ⟨a', act', ue', ha', hact', hue', hgate', -⟩
          · rw [ha] at hnone
            exact Option.noConfusion hnone
          · rw [ha] at ha'
            obtain rfl : a = a' := by injection ha'
            rw [hact] at hact'
            obtain rfl : act = act' := by injection hact'
            rw [hue] at hue'
            obtain rfl : e = ue' := by injection hue'
            exact absurd ⟨hlt, hgate⟩ hgate'
        · exact ih (idx + 1) o2 κ2 r out2 hc hrun

/-- C3: whenever the requested channel set contains a channel whose active
buffer has `updated_end` watermark `e` less than the full logical buffer
length and whose requested `end` exceeds `e`, any non-exceptional result of
`biosignal_calculate_signals` is the not-loaded failure, regardless of all
other channel parameters — the call never succeeds. -/
theorem stale_end_watermark_always_fails (st : BiosignalState)
    (g : ButterReq → List ℚ → List ℚ) (channels : List Channel)
    (output : List (List ℚ)) (c : Channel) (a : ℤ) (inp : List (List ℚ))
    (act : List ℚ) (e : ℚ) (hin : st.input = some inp) (hmem : c ∈ channels)
    (ha : c.active = some a) (hact : pyIdx inp a = .ok act)
    (hue : pyIdxN act st.f_updated_end = .ok e)
    (hlt : e < (actLen st act : ℚ)) (hend : e < (c.endI : ℚ)) :
    ∀ r out2, biosignal_calculate_signals st g channels output = .ok (r, out2) →
      r = notLoadedRes := by
  intro r out2 h
  unfold biosignal_calculate_signals at h
  simp only [hin] at h
  split at h
  · exfalso
    rename_i hzero
    have : inp = [] := List.length_eq_zero.mp hzero
    subst this
    simp [pyIdx] at hact
  · exact calcLoop_stale st g inp c a act e ha hact hue hlt hend channels 0 output
      [] r out2 hmem h

/-- C4 (counterexample to the claim as stated): the process-wide default
highpass filter of `stC4` is set (`Wn = 1`), channel `chC4`'s highpass
entry is `None`, and the claim says the default must then be applied — its
application through the `sosfiltfilt` stand-in `gC4` would produce
`[110, 120]`.  The call instead writes the unfiltered window `[10, 20]`:
the default-filter branch of the source is commented out, so `None`
disables the sub-filter just like `0`. -/
theorem default_filters_not_applied :
    biosignal_calculate_signals stC4 gC4 [chC4] [[0, 0]] =
      .ok (successRes, [[10, 20]]) ∧
      biosignal_get_filter_coefficients stC4.filters ("highpass") 1 100 none =
        some hpReqC4 ∧
      gC4 hpReqC4 [10, 20] = [110, 120] ∧
      [(10 : ℚ), 20] ≠ [(110 : ℚ), 120] := by
  refine ⟨?_, ?_, ?_, ?_⟩
  · norm_num [biosignal_calculate_signals, calcLoop, processChannel, pyIdx,
      pyIdxN, actLen, padStart, padEnd, startPos, endPos, extractWindow, npPad,
      pySliceZ, sliceIdx, insertGaps, removeGaps, refSignal, npSub, applyFilters,
      fitToOutput, stC4, gC4, chC4, truthy, Int.toNat, List.replicate]
  · norm_num [biosignal_get_filter_coefficients, pyOrN, stC4, hpReqC4]
  · norm_num [gC4, hpReqC4]
  · norm_num

/-- C5 (counterexample to the claim as stated): channel `chC5b` has an
empty reference list, so by the claim the subtracted reference is all-zero
and its output would be its unchanged window `[30, 40]`; instead the call
reuses the common reference `[30, 40]` cached while processing `chC5a`
(whose reference list is `[1]`) and writes `[0, 0]`. -/
theorem common_ref_cache_overrides_reference :
    biosignal_calculate_signals stC5 gC5 [chC5a, chC5b] [[0, 0], [0, 0]] =
      .ok (successRes, [[-20, -20], [0, 0]]) ∧
      [(0 : ℚ), 0] ≠ [(30 : ℚ), 40] := by
  constructor
  · norm_num [biosignal_calculate_signals, calcLoop, processChannel, pyIdx,
      pyIdxN, actLen, padStart, padEnd, startPos, endPos, extractWindow, npPad,
      pySliceZ, sliceIdx, insertGaps, removeGaps, refSignal, npSub, applyFilters,
      fitToOutput, stC5, gC5, chC5a, chC5b, defaultFilters, List.lookup,
      Int.toNat, List.replicate]
  · simp

/-- Witness for C6: the two concrete channels of `stC6`/`actC6`, one
reaching two samples before the buffer and one two samples past its end. -/
theorem extract_window_zero_padding_witness :
    extractWindow stC6 actC6 chC6a = [0, 0, 10, 20] ∧
      extractWindow stC6 actC6 chC6b = [20, 30, 40, 0, 0] := by
  have h1 := (extract_window_zero_padding stC6 actC6 chC6a 2 0).1
    (by norm_num [chC6a]) (by norm_num)
    (by norm_num [chC6a, actLen, stC6, actC6])
  have h2 := (extract_window_zero_padding stC6 actC6 chC6b 0 2).2
    (by norm_num [chC6b]) (by norm_num [chC6b, actLen, stC6, actC6])
    (by norm_num)
  constructor
  · rw [h1]
    norm_num [pySliceZ, sliceIdx, stC6, actC6, chC6a, Int.toNat, List.replicate]
  · rw [h2]
    norm_num [pySliceZ, sliceIdx, stC6, actC6, chC6b, actLen, Int.toNat,
      List.replicate]

/-- Element access below a take index is unchanged. -/
theorem getD_take' {α : Type} (v : List α) (a j : ℕ) (d : α) (h : j < a) :
    (v.take a).getD j d = v.getD j d := by
  simp [List.getD_eq_getElem?_getD, List.getElem?_take, h]

/-- Element access into a drop shifts the index. -/
theorem getD_drop' {α : Type} (v : List α) (a j : ℕ) (d : α) :
    (v.drop a).getD j d = v.getD (a + j) d := by
  simp [List.getD_eq_getElem?_getD, List.getElem?_drop]

/-- Element access into a replicate with its own element as default. -/
theorem getD_replicate_self {α : Type} (n j : ℕ) (d : α) :
    (List.replicate n d).getD j d = d := by
  simp only [List.getD_eq_getElem?_getD, List.getElem?_replicate]
  split <;> rfl

/-- Pointwise description of a single gap insertion (with out-of-range
positions reading the default 0 on both sides). -/
theorem getD_insertGap (v : List ℚ) (a b j : ℕ) (ha : a ≤ v.length) :
    (insertGap v (a, b)).getD j 0 =
      if j < a then v.getD j 0
      else if j < b then (0 : ℚ)
      else v.getD (j - (b - a)) 0 := by
  have hta : (v.take a).length = a := by simp [ha]
  unfold insertGap
  dsimp only
  by_cases h1 : j < a
  · rw [if_pos h1, List.append_assoc,
      List.getD_append _ _ _ _ (by omega), getD_take' v a j 0 h1]
  · rw [if_neg h1, List.append_assoc,
      List.getD_append_right _ _ _ _ (by omega), hta]
    by_cases h2 : j < b
    · rw [if_pos h2, List.getD_append _ _ _ _ (by simp; omega)]
      exact getD_replicate_self _ _ _
    · rw [if_neg h2, List.getD_append_right _ _ _ _ (by simp; omega),
        List.length_replicate, getD_drop']
      congr 1
      omega

/-- A single gap insertion commutes with the pointwise mean of a stack of
equally long rows. -/
theorem insertGap_mean_pointwise (v : List ℚ) (ls : List (List ℚ))
    (L a b : ℕ) (hv : v.length = L) (hls : ∀ w ∈ ls, w.length = L)
    (ha : a ≤ L)
    (hpt : ∀ j, v.getD j 0 = (ls.map (fun w => w.getD j 0)).sum / (ls.length : ℚ)) :
    ∀ j, (insertGap v (a, b)).getD j 0 =
      ((ls.map (fun w => insertGap w (a, b))).map (fun w => w.getD j 0)).sum /
        (ls.length : ℚ) := by
  intro j
  rw [getD_insertGap v a b j (by omega)]
  have hmap : (ls.map (fun w => insertGap w (a, b))).map (fun w => w.getD j 0) =
      ls.map (fun w => if j < a then w.getD j 0
        else if j < b then (0 : ℚ) else w.getD (j - (b - a)) 0) := by
    rw [List.map_map]
    refine List.map_congr_left (fun w hw => ?_)
    simp only [Function.comp_apply]
    exact getD_insertGap w a b j (by rw [hls w hw]; exact ha)
  rw [hmap]
  by_cases h1 : j < a
  · simp only [if_pos h1]
    exact hpt j
  · by_cases h2 : j < b
    · simp only [if_neg h1, if_pos h2]
      simp
    · simp only [if_neg h1, if_neg h2]
      exact hpt (j - (b - a))

/-- Inserting a well-formed gap list commutes with the pointwise mean of a
stack of equally long rows. -/
theorem insertGaps_mean_pointwise (gaps : List (ℕ × ℕ)) :
    ∀ (v : List ℚ) (ls : List (List ℚ)) (L lo : ℕ), v.length = L →
      (∀ w ∈ ls, w.length = L) → gapsOK lo L gaps = true →
      (∀ j, v.getD j 0 = (ls.map (fun w => w.getD j 0)).sum / (ls.length : ℚ)) →
      ∀ j, (insertGaps v gaps).getD j 0 =
        ((ls.map (fun w => insertGaps w gaps)).map (fun w => w.getD j 0)).sum /
          (ls.length : ℚ) := by
  induction gaps with
  | nil =>
    intro v ls L lo hv hls _ hpt j
    simpa [insertGaps] using hpt j
  | cons gb gs ih =>
    intro v ls L lo hv hls hOK hpt j
    obtain ⟨a, b⟩ := gb
    simp only [gapsOK, Bool.and_eq_true, decide_eq_true_eq] at hOK
    obtain ⟨⟨⟨h1, h2⟩, h3⟩, h4⟩ := hOK
    have hv' : (insertGap v (a, b)).length = L + (b - a) := by
      rw [insertGap_length v a b (by omega), hv]
    have hls' : ∀ w ∈ ls.map (fun w => insertGap w (a, b)),
        w.length = L + (b - a) := by
      intro w hw
      obtain ⟨w0, hw0, rfl⟩ := List.mem_map.mp hw
      rw [insertGap_length w0 a b (by rw [hls w0 hw0]; exact h3), hls w0 hw0]
    have hpt' := insertGap_mean_pointwise v ls L a b hv hls h3 hpt
    have hpt'' : ∀ j, (insertGap v (a, b)).getD j 0 =
        ((ls.map (fun w => insertGap w (a, b))).map (fun w => w.getD j 0)).sum /
          (((ls.map (fun w => insertGap w (a, b))).length : ℕ) : ℚ) := by
      simpa only [List.length_map] using hpt'
    have hrec := ih (insertGap v (a, b)) (ls.map (fun w => insertGap w (a, b)))
      (L + (b - a)) b hv' hls' h4 hpt'' j
    simpa [insertGaps, List.map_map, Function.comp, List.length_map] using hrec

/-- `npMean` on equally long rows succeeds and is the elementwise
arithmetic mean, read off pointwise with default 0. -/
theorem npMean_pointwise (w : List ℚ) (rest : List (List ℚ)) (L : ℕ)
    (hw : w.length = L) (hrest : ∀ s ∈ rest, s.length = L) :
    ∃ mean, npMean (w :: rest) = .ok mean ∧ mean.length = L ∧
      ∀ j, mean.getD j 0 =
        ((w :: rest).map (fun s => s.getD j 0)).sum / ((w :: rest).length : ℚ) := by
  have hall : rest.all (fun s => s.length == w.length) = true := by
    rw [List.all_eq_true]
    intro s hs
    simp [hrest s hs, hw]
  refine ⟨(List.range w.length).map (fun i =>
      ((w :: rest).map (fun s => s.getD i 0)).sum / ((w :: rest).length : ℚ)),
    by simp [npMean, hall], by simp [hw], ?_⟩
  intro j
  by_cases hj : j < L
  · rw [List.getD_eq_getElem _ _ (by simp [hw]; omega)]
    simp [List.getElem_map, List.getElem_range]
  · rw [List.getD_eq_default _ _ (by simp [hw]; omega)]
    have hz : (w :: rest).map (fun s => s.getD j 0) =
        (w :: rest).map (fun _ => (0 : ℚ)) := by
      refine List.map_congr_left (fun s hs => ?_)
      rcases List.mem_cons.mp hs with rfl | hs'
      · exact List.getD_eq_default _ _ (by omega)
      · exact List.getD_eq_default _ _ (by rw [hrest s hs']; omega)
    rw [hz]
    simp

/-- `refWindows` produces one window per listed source. -/
theorem refWindows_length (input_sigs : List (List ℚ)) (sp ep : ℤ) (ps pe : ℕ) :
    ∀ (rs : List ℤ) (ws : List (List ℚ)),
      refWindows input_sigs sp ep ps pe rs = .ok ws → ws.length = rs.length := by
  intro rs
  induction rs with
  | nil =>
    intro ws h
    simp only [refWindows, Except.ok.injEq] at h
    subst h
    rfl
  | cons r rest ih =>
    intro ws h
    simp only [refWindows] at h
    cases hb : pyIdx input_sigs r with
    | error e =>
      rw [hb] at h
      exact Except.noConfusion h
    | ok buf =>
      rw [hb] at h
      cases hr : refWindows input_sigs sp ep ps pe rest with
      | error e =>
        rw [hr] at h
        exact Except.noConfusion h
      | ok ws0 =>
        rw [hr] at h
        simp only [Except.ok.injEq] at h
        subst h
        simp [ih ws0 hr]

/-- C5 (amended): a channel that computes its reference afresh — its
common-ref flag unset, or no reference cached yet for its type — gets
exactly the claimed reference before subtraction: the all-zero array of
the active window's length for an empty reference list; the windowed,
zero-padded, gap-filled signal of the single listed source; and, for
several sources, the gap-filled mean, which equals pointwise the
elementwise arithmetic mean of the windowed, zero-padded, gap-filled
signals of all listed sources.  A common-ref channel whose type is already
cached instead reuses the cached reference, whatever its own reference
list says (see the counterexample). -/
theorem reference_signal_shapes (input_sigs : List (List ℚ)) (sp ep : ℤ)
    (ps pe : ℕ) (gaps : List (ℕ × ℕ)) (cache : List (String × List ℚ))
    (c : Channel) (n : ℕ)
    (hmiss : (if c.common_ref then List.lookup c.type cache else none) = none) :
    (c.reference = [] →
      ∃ κ, refSignal input_sigs sp ep ps pe gaps cache c n =
        .ok (List.replicate n 0, κ)) ∧
    (∀ r buf, c.reference = [r] → pyIdx input_sigs r = .ok buf →
      ∃ κ, refSignal input_sigs sp ep ps pe gaps cache c n =
        .ok (insertGaps (npPad (pySliceZ buf sp ep) ps pe) gaps, κ)) ∧
    (∀ r1 r2 rrest ws L, c.reference = r1 :: r2 :: rrest →
      refWindows input_sigs sp ep ps pe (r1 :: r2 :: rrest) = .ok ws →
      (∀ w ∈ ws, w.length = L) → gapsOK 0 L gaps = true →
      ∃ κ mean, npMean ws = .ok mean ∧
        refSignal input_sigs sp ep ps pe gaps cache c n =
          .ok (insertGaps mean gaps, κ) ∧
        ∀ j, (insertGaps mean gaps).getD j 0 =
          ((ws.map (fun w => insertGaps w gaps)).map (fun w => w.getD j 0)).sum /
            (ws.length : ℚ)) := by
  refine ⟨?_, ?_, ?_⟩
  · intro href
    by_cases hcr : c.common_ref = true
    · have hlook : List.lookup c.type cache = none := by simpa [hcr] using hmiss
      exact ⟨(c.type, List.replicate n 0) :: cache,
        by simp [refSignal, hcr, hlook, href]⟩
    · simp only [Bool.not_eq_true] at hcr
      exact ⟨cache, by simp [refSignal, hcr, href]⟩
  · intro r buf href hbuf
    by_cases hcr : c.common_ref = true
    · have hlook : List.lookup c.type cache = none := by simpa [hcr] using hmiss
      exact ⟨(c.type, insertGaps (npPad (pySliceZ buf sp ep) ps pe) gaps) :: cache,
        by simp [refSignal, hcr, hlook, href, hbuf]⟩
    · simp only [Bool.not_eq_true] at hcr
      exact ⟨cache, by simp [refSignal, hcr, href, hbuf]⟩
  · intro r1 r2 rrest ws L href hws hlen hOK
    have hlw : ws.length = (r1 :: r2 :: rrest).length :=
      refWindows_length input_sigs sp ep ps pe (r1 :: r2 :: rrest) ws hws
    cases ws with
    | nil => simp at hlw
    | cons w ws' =>
      obtain ⟨mean, hmean, hmlen, hmpt⟩ := npMean_pointwise w ws' L
        (hlen w (by simp)) (fun s hs => hlen s (by simp [hs]))
      have hpoint := insertGaps_mean_pointwise gaps mean (w :: ws') L 0 hmlen hlen
        hOK hmpt
      by_cases hcr : c.common_ref = true
      · have hlook : List.lookup c.type cache = none := by simpa [hcr] using hmiss
        exact ⟨(c.type, insertGaps mean gaps) :: cache, mean, hmean,
          by simp [refSignal, hcr, hlook, href, hws, hmean], hpoint⟩
      · simp only [Bool.not_eq_true] at hcr
        exact ⟨cache, mean, hmean,
          by simp [refSignal, hcr, href, hws, hmean], hpoint⟩

/-- Witness for C5 (amended): a fresh two-source reference over two
two-sample buffers; the reference is the elementwise mean. -/
theorem reference_signal_shapes_witness :
    refWindows [[(1 : ℚ), 2], [3, 4]] 0 2 0 0 [0, 1] =
      .ok [[(1 : ℚ), 2], [3, 4]] ∧
      ∃ κ mean, npMean [[(1 : ℚ), 2], [3, 4]] = .ok mean ∧
        refSignal [[(1 : ℚ), 2], [3, 4]] 0 2 0 0 [] [] refChanW 2 =
          .ok (insertGaps mean [], κ) ∧
        ∀ j, (insertGaps mean []).getD j 0 =
          ((([[(1 : ℚ), 2], [3, 4]] : List (List ℚ)).map
              (fun w => insertGaps w [])).map (fun w => w.getD j 0)).sum /
            (([[(1 : ℚ), 2], [3, 4]] : List (List ℚ)).length : ℚ) := by
  constructor
  · rfl
  · exact (reference_signal_shapes [[(1 : ℚ), 2], [3, 4]] 0 2 0 0 [] [] refChanW 2
      rfl).2.2 0 1 [] [[(1 : ℚ), 2], [3, 4]] 2 rfl rfl
      (by decide) rfl

/-- Witness for C3: a buffer with `updated_end = 0` (two data samples
behind) and a request for `[0, 2)`; the only non-exceptional outcome is the
not-loaded failure. -/
theorem stale_end_watermark_always_fails_witness :
    pyIdxN [(100 : ℚ), 0, 0, 10, 20] 2 = .ok 0 ∧
      (biosignal_calculate_signals stC3 gC3 [chC3] [[0, 0]] =
          .ok (successRes, [[0, 0]]) →
        successRes = notLoadedRes) :=
  ⟨rfl, fun h => stale_end_watermark_always_fails stC3 gC3 [chC3] [[0, 0]] chC3 0
    [[100, 0, 0, 10, 20]] [(100 : ℚ), 0, 0, 10, 20] 0 rfl (by simp) rfl rfl rfl
    (by norm_num [actLen, stC3]) (by norm_num [chC3]) successRes [[0, 0]] h⟩

end BiosignalModel
